import Mathlib

/-!
Shallow embedding of the change-isolation subsystem
(src/tcbuilder/backend/isolate.py).

Pure string manipulation (Python str.split, str.rsplit, path translation,
command construction) is embedded as Lean functions. The effectful
orchestration (isolate_user_changes) is embedded as a function from an
environment describing the remote side (exit statuses, directory listings,
transfer outcomes) to a trace of cleanup-relevant events plus a result.
-/

namespace Isolate

/-- The fixed ignore list from isolate.py (ignore_files). -/
def ignore_files : List String :=
  ["gshadow", "machine-id", "group", "shadow",
   "systemd/system/sysinit.target.wants/run-postinsts.service",
   "ostree/remotes.d/toradex-nightly.conf", "docker/key.json", ".updated",
   ".pwd.lock", "group-", "gshadow-", "hostname", "ssh/ssh_host_rsa_key",
   "ssh/ssh_host_rsa_key.pub", "ssh/ssh_host_ecdsa_key",
   "ssh/ssh_host_ecdsa_key.pub", "ssh/ssh_host_ed25519_key",
   "ssh/ssh_host_ed25519_key.pub"]

/-- Name of the produced archive (TAR_NAME in isolate.py). -/
def TAR_NAME : String := "isolated_changes.tar"

/-- ASCII whitespace as recognized by the Python str.split() default. -/
def isPySpace (c : Char) : Bool :=
  c = ' ' || c = '\t' || c = '\n' || c = '\x0d' || c = '\x0b' || c = '\x0c'

/-- Helper for pySplit: walk the characters, accumulating the current
(reversed) field; whitespace ends a field, empty fields are dropped. -/
def pySplitAux : List Char → List Char → List String
  | [], acc => if acc = [] then [] else [String.mk acc.reverse]
  | c :: cs, acc =>
    if isPySpace c then
      if acc = [] then pySplitAux cs []
      else String.mk acc.reverse :: pySplitAux cs []
    else pySplitAux cs (c :: acc)

/-- Python s.split() with no arguments: split on whitespace runs,
discarding empty fields. -/
def pySplit (s : String) : List String := pySplitAux s.data []

/-- Field i of a whitespace-split line; none models a Python IndexError. -/
def pyField (s : String) (i : Nat) : Option String := (pySplit s)[i]?

/-- Helper for rsplit1: split a character list at its LAST slash, if any. -/
def rsplit1Core : List Char → Option (List Char × List Char)
  | [] => none
  | c :: cs =>
    match rsplit1Core cs with
    | some (a, b) => some (c :: a, b)
    | none => if c = '/' then some ([], cs) else none

/-- Python p.rsplit(slash, 1): one element when p has no slash, otherwise
the part before and the part after the last slash. -/
def rsplit1 (p : String) : List String :=
  match rsplit1Core p.data with
  | none => [p]
  | some (a, b) => [String.mk a, String.mk b]

/-- check_path from isolate.py: the slash string for a path directly under
the configuration root, otherwise the parent directory wrapped in slashes. -/
def check_path (p : String) : String :=
  if (rsplit1 p).headD "" = p then "/"
  else "/" ++ (rsplit1 p).headD "" ++ "/"

/-- The whiteout marker path computed by whiteouts in isolate.py, given the
remote directory-listing function and the deleted path (relative to the
configuration root). -/
def whiteout_name (listdir : String → List String) (deleted_f_d : String) :
    String :=
  let path := check_path deleted_f_d
  if path ≠ "/" then
    let d_list := listdir ("/etc" ++ path)
    if d_list.isEmpty then "etc" ++ path ++ ".wh..wh..opq"
    else "etc" ++ path ++ ".wh." ++ ((rsplit1 deleted_f_d)[1]?).getD ""
  else
    "etc" ++ path ++ ".wh." ++ deleted_f_d

/-- ignore_changes_deletion from isolate.py. The predicate indexes field 1
of the split line; none models the IndexError a short line raises. -/
def ignore_changes_deletion (change : String) : Option Bool :=
  match (pySplit change)[1]? with
  | none => none
  | some p => if p ∈ ignore_files then some false else some true

/-- list(filter(ignore_changes_deletion, output)): none models the
IndexError propagating out of the filter for a malformed line. -/
def filterChanges : List String → Option (List String)
  | [] => some []
  | l :: ls =>
    match ignore_changes_deletion l with
    | none => none
    | some false => filterChanges ls
    | some true => (filterChanges ls).map (fun r => l :: r)

/-- run_command_without_sudo from isolate.py, over an abstract remote
executor: returns the exit status and the captured output. -/
def run_command_without_sudo (execCmd : String → Nat × String)
    (command : String) : Nat × String :=
  execCmd command

/-- remove_tmp_dir from isolate.py: runs rm -rf on the scratch directory
and discards the returned exit status entirely (the Python function
neither checks nor returns it). -/
def remove_tmp_dir (execCmd : String → Nat × String)
    (tmp_dir_name : String) : Unit :=
  let _ := run_command_without_sudo execCmd ("rm -rf " ++ tmp_dir_name)
  ()

/-- The mkdir-and-touch command built inside whiteouts in isolate.py for a
given scratch directory and marker path. -/
def create_deleted_info_cmd (tmp_dir_name marker : String) : String :=
  "mkdir -p " ++ tmp_dir_name ++ "/" ++ (rsplit1 marker).headD ""
    ++ " && touch " ++ tmp_dir_name ++ "/" ++ marker

/-- The effectful part of whiteouts in isolate.py: compute the marker,
run the materialization command remotely, raise (none) on a non-zero
exit status. whStatus gives the exit status of the remote command. -/
def whiteouts_run (listdir : String → List String) (whStatus : String → Nat)
    (tmp_dir_name deleted_f_d : String) : Option Unit :=
  let marker := whiteout_name listdir deleted_f_d
  if whStatus (create_deleted_info_cmd tmp_dir_name marker) > 0 then none
  else some ()

/-- The per-change loop of isolate_user_changes: accumulates the
files_dir_to_tar string for non-deletions, runs whiteouts for deletions
(none models the propagating error); returns the final string and the
f_delete_exists flag. Items reaching this loop passed the filter, so
field access uses a default that is never hit on reachable inputs. -/
def loopChanges (listdir : String → List String) (whStatus : String → Nat)
    (tmp_dir_name : String) :
    List String → String → Bool → Option (String × Bool)
  | [], files, fdel => some (files, fdel)
  | item :: rest, files, fdel =>
    if (pyField item 0).getD "" ≠ "D" then
      loopChanges listdir whStatus tmp_dir_name rest
        (files ++ "/etc/" ++ (pyField item 1).getD "" ++ " ") fdel
    else
      match whiteouts_run listdir whStatus tmp_dir_name
          ((pyField item 1).getD "") with
      | none => none
      | some _ => loopChanges listdir whStatus tmp_dir_name rest files true

/-- The tar command string built by isolate_user_changes: one shape when a
deletion occurred (based at the scratch directory, excluding the archive
from itself), another when none did (only the listed paths). -/
def tar_command (tmp_dir_name files_dir_to_tar : String)
    (f_delete_exists : Bool) : String :=
  if f_delete_exists then
    "sudo tar --exclude=" ++ TAR_NAME ++ " --xattrs --acls -cf "
      ++ tmp_dir_name ++ "/" ++ TAR_NAME ++ " -C " ++ tmp_dir_name ++ " . "
      ++ files_dir_to_tar
  else
    "sudo tar --xattrs --acls -cf " ++ tmp_dir_name ++ "/" ++ TAR_NAME
      ++ " " ++ files_dir_to_tar

/-- Direct characterization of the accumulated files_dir_to_tar string:
the non-deletion items, each rendered as /etc/<path> with a trailing
blank, in order. -/
def amPaths : List String → String
  | [] => ""
  | c :: rest =>
    if (pyField c 0).getD "" ≠ "D" then
      "/etc/" ++ (pyField c 1).getD "" ++ " " ++ amPaths rest
    else amPaths rest

/-- One run of the remote side, as isolate_user_changes observes it:
exit statuses of the remote commands, directory listings, and the
success of the paramiko and local-subprocess steps. rmStatus is the
exit status of the rm -rf on the scratch directory; the code never
looks at it. -/
structure Env where
  connectOk : Bool
  diffStatus : Nat
  diffLines : List String
  sftpOk : Bool
  scratchName : String
  mkdirOk : Bool
  listdir : String → List String
  whStatus : String → Nat
  tarStatus : Nat
  getOk : Bool
  rmStatus : Nat
  extractOk : Bool
  rmLocalOk : Bool

/-- Cleanup-relevant events of one run, in order. -/
inductive Ev where
  | mkdirScratch
  | download
  | removeScratch
  | sftpClose
  | close
  | extract
  | deleteLocalTar
deriving DecidableEq, Repr

/-- The distinct failure outcomes of isolate_user_changes, one per raise
site (TorizonCoreBuilderError messages) or propagating library
exception. -/
inductive RunError where
  | connectFail
  | configDiff
  | indexError
  | noChanges
  | sftpNone
  | mkdirFail
  | whiteoutFail
  | tarFail
  | transferFail
  | extractFail
  | rmLocalFail
deriving DecidableEq, Repr

instance : DecidableEq (Except RunError Unit) := fun a b =>
  match a, b with
  | .ok (), .ok () => isTrue rfl
  | .ok _, .error _ => isFalse (fun hq => Except.noConfusion hq)
  | .error _, .ok _ => isFalse (fun hq => Except.noConfusion hq)
  | .error x, .error y =>
    if h : x = y then isTrue (by rw [h])
    else isFalse (by intro hq; injection hq with h2; exact h h2)

/-- The TorizonCoreBuilderError message prefix of each domain failure;
none for outcomes that propagate a library exception instead. -/
def torizonErrorMessage : RunError → Option String
  | .configDiff => some "Unable to get config diff"
  | .noChanges => some "no change is made in /etc by user"
  | .whiteoutFail => some "Deleted Files information is not moved to host"
  | .tarFail => some "Unable to collect info"
  | .sftpNone => some "Unable to connect to the host"
  | _ => none

/-- isolate_user_changes from isolate.py, over an Env: mirrors the control
flow line by line and records the cleanup-relevant events each path
performs before returning or letting the error propagate (the outer
try block only re-raises, so a propagating exception performs no
cleanup). -/
def isolate_user_changes (env : Env) : List Ev × Except RunError Unit :=
  if ¬ env.connectOk then ([], .error .connectFail)
  else if env.diffStatus > 0 then ([.close], .error .configDiff)
  else
    match filterChanges (env.diffLines.drop 2) with
    | none => ([], .error .indexError)
    | some changes =>
      if changes.isEmpty then ([], .error .noChanges)
      else if env.sftpOk then
        if ¬ env.mkdirOk then ([], .error .mkdirFail)
        else
          match loopChanges env.listdir env.whStatus env.scratchName
              changes "" false with
          | none => ([.mkdirScratch], .error .whiteoutFail)
          | some _ =>
            if env.tarStatus > 0 then
              ([.mkdirScratch, .removeScratch, .sftpClose, .close],
               .error .tarFail)
            else if ¬ env.getOk then
              ([.mkdirScratch], .error .transferFail)
            else if ¬ env.extractOk then
              ([.mkdirScratch, .download, .removeScratch, .sftpClose,
                .close], .error .extractFail)
            else if ¬ env.rmLocalOk then
              ([.mkdirScratch, .download, .removeScratch, .sftpClose,
                .close, .extract], .error .rmLocalFail)
            else
              ([.mkdirScratch, .download, .removeScratch, .sftpClose,
                .close, .extract, .deleteLocalTar], .ok ())
      else ([.close], .error .sftpNone)

-- Sanity checks (concrete evaluation of the embedded functions).
example : pySplit "D foo/bar.conf" = ["D", "foo/bar.conf"] := by decide
example : rsplit1 "foo/bar.conf" = ["foo", "bar.conf"] := by decide
example : rsplit1 "baz" = ["baz"] := by decide
example : check_path "baz" = "/" := by decide
example : check_path "foo/bar.conf" = "/foo/" := by decide
example : whiteout_name (fun _ => ["x"]) "foo/bar.conf"
    = "etc/foo/.wh.bar.conf" := by decide
example : whiteout_name (fun _ => []) "foo/bar.conf"
    = "etc/foo/.wh..wh..opq" := by decide
example : whiteout_name (fun _ => []) "baz" = "etc/.wh.baz" := by decide
example : ignore_changes_deletion "M hostname" = some false := by decide
example : ignore_changes_deletion "M motd" = some true := by decide
example : ignore_changes_deletion "D" = none := by decide
example : filterChanges ["M hostname", "A osrelease", "D gshadow"]
    = some ["A osrelease"] := by decide

/-- A run in which everything succeeds: one modification, one deletion
with a surviving sibling. -/
def envOk : Env where
  connectOk := true
  diffStatus := 0
  diffLines := ["sudo: prompt", "password", "M motd", "D foo/bar.conf"]
  sftpOk := true
  scratchName := "/tmp/torizon-builder-d"
  mkdirOk := true
  listdir := fun _ => ["sibling"]
  whStatus := fun _ => 0
  tarStatus := 0
  getOk := true
  rmStatus := 0
  extractOk := true
  rmLocalOk := true

/-- A run in which the whiteout materialization command exits non-zero. -/
def envWhiteoutFail : Env := { envOk with whStatus := fun _ => 1 }

/-- A run in which the remote archive-creation command exits non-zero. -/
def envTarFail : Env := { envOk with tarStatus := 1 }

example : isolate_user_changes envOk
    = ([.mkdirScratch, .download, .removeScratch, .sftpClose, .close,
        .extract, .deleteLocalTar], .ok ()) := rfl
example : isolate_user_changes envWhiteoutFail
    = ([.mkdirScratch], .error .whiteoutFail) := rfl
example : isolate_user_changes envTarFail
    = ([.mkdirScratch, .removeScratch, .sftpClose, .close],
       .error .tarFail) := rfl
example : isolate_user_changes { envOk with diffLines := ["a", "b"] }
    = ([], .error .noChanges) := rfl
example : isolate_user_changes { envOk with rmStatus := 7 } =
    isolate_user_changes envOk := rfl

/-! Helper lemmas about the embedded string primitives. -/

theorem sappend_assoc (a b c : String) : a ++ b ++ c = a ++ (b ++ c) :=
  String.ext (by simp [String.data_append])

theorem rsplit1Core_some {cs : List Char} {a b : List Char}
    (h : rsplit1Core cs = some (a, b)) : cs = a ++ '/' :: b := by
  induction cs generalizing a b with
  | nil => simp [rsplit1Core] at h
  | cons c cs ih =>
    rw [rsplit1Core] at h
    cases hc : rsplit1Core cs with
    | some ab =>
      obtain ⟨a0, b0⟩ := ab
      rw [hc] at h
      simp only [Option.some.injEq, Prod.mk.injEq] at h
      obtain ⟨ha, hb⟩ := h
      subst ha; subst hb
      simp [ih hc]
    | none =>
      rw [hc] at h
      by_cases hs : c = '/'
      · rw [if_pos hs] at h
        simp only [Option.some.injEq, Prod.mk.injEq] at h
        obtain ⟨ha, hb⟩ := h
        subst ha; subst hb
        simp [hs]
      · simp [hs] at h

theorem rsplit1Core_none {cs : List Char} (h : rsplit1Core cs = none) :
    '/' ∉ cs := by
  induction cs with
  | nil => simp
  | cons c cs ih =>
    rw [rsplit1Core] at h
    cases hc : rsplit1Core cs with
    | some ab => rw [hc] at h; simp at h
    | none =>
      rw [hc] at h
      by_cases hs : c = '/'
      · simp [hs] at h
      · simpa [hs, Ne.symm hs] using ih hc

/-- A two-element rsplit result determines the data of the path and the
value of check_path. -/
theorem rsplit1_pair {P D base : String} (h : rsplit1 P = [D, base]) :
    P.data = D.data ++ '/' :: base.data ∧ check_path P = "/" ++ D ++ "/" := by
  have hcore : ∃ a b, rsplit1Core P.data = some (a, b)
      ∧ D = String.mk a ∧ base = String.mk b := by
    unfold rsplit1 at h
    cases hc : rsplit1Core P.data with
    | none => rw [hc] at h; simp at h
    | some ab =>
      obtain ⟨a, b⟩ := ab
      rw [hc] at h
      simp only [List.cons.injEq, and_true] at h
      exact ⟨a, b, rfl, h.1.symm, h.2.symm⟩
  obtain ⟨a, b, hc, hD, hb⟩ := hcore
  have hdata : P.data = D.data ++ '/' :: base.data := by
    rw [hD, hb]
    exact rsplit1Core_some hc
  refine ⟨hdata, ?_⟩
  have hDP : D ≠ P := by
    intro hq
    have := congrArg (fun s => s.data.length) hq
    simp only [hdata, List.length_append, List.length_cons] at this
    omega
  have hhead : (rsplit1 P).headD "" = D := by rw [h]; rfl
  unfold check_path
  rw [hhead, if_neg hDP]

theorem check_path_of_no_slash {P : String} (h : '/' ∉ P.data) :
    check_path P = "/" := by
  have hc : rsplit1Core P.data = none := by
    cases hc : rsplit1Core P.data with
    | none => rfl
    | some ab =>
      obtain ⟨a, b⟩ := ab
      exact absurd (by rw [rsplit1Core_some hc]; simp : '/' ∈ P.data) h
  unfold check_path rsplit1
  rw [hc]
  simp

theorem etc_prefix_merge (X : String) :
    "etc" ++ ("/" ++ X) = "etc/" ++ X := by
  rw [← sappend_assoc]
  rw [show ("etc" : String) ++ "/" = "etc/" from by decide]

theorem etc_marker_merge (D s : String) :
    "etc" ++ ("/" ++ D ++ "/") ++ s = "etc/" ++ D ++ ("/" ++ s) := by
  simp only [sappend_assoc]
  exact etc_prefix_merge _

theorem sempty_append (s : String) : "" ++ s = s :=
  String.ext (by
    rw [String.data_append, show ("" : String).data = [] from rfl]
    simp)

theorem sappend_empty (s : String) : s ++ "" = s :=
  String.ext (by
    rw [String.data_append, show ("" : String).data = [] from rfl]
    simp)

/-! Theorems settling the claims. -/

/-- C1: for every Deleted record whose path P lies in a subdirectory D of
the configuration root (P splits as D slash basename), the encoder lists
the remaining remote entries of /etc/<D>/ and emits exactly one marker:
etc/<D>/.wh.<basename(P)> when the listing is non-empty and the opaque
marker etc/<D>/.wh..wh..opq when it is empty. -/
theorem whiteout_subdir_marker (listdir : String → List String)
    (P D base : String) (h : rsplit1 P = [D, base]) :
    (listdir ("/etc/" ++ D ++ "/") = [] →
      whiteout_name listdir P = "etc/" ++ D ++ "/.wh..wh..opq") ∧
    (listdir ("/etc/" ++ D ++ "/") ≠ [] →
      whiteout_name listdir P = "etc/" ++ D ++ "/.wh." ++ base) := by
  obtain ⟨hdata, hcp⟩ := rsplit1_pair h
  have hne : ("/" ++ D ++ "/" : String) ≠ "/" := by
    intro hq
    have hlen := congrArg String.length hq
    rw [String.length_append, String.length_append] at hlen
    rw [show ("/" : String).length = 1 from rfl] at hlen
    omega
  have harg : ("/etc" : String) ++ ("/" ++ D ++ "/") = "/etc/" ++ D ++ "/" := by
    simp only [← sappend_assoc]
    rw [show ("/etc" : String) ++ "/" = "/etc/" from by decide]
  have hbase : ((rsplit1 P)[1]?).getD "" = base := by rw [h]; rfl
  have hwn : whiteout_name listdir P =
      if (listdir ("/etc/" ++ D ++ "/")).isEmpty then
        "etc" ++ ("/" ++ D ++ "/") ++ ".wh..wh..opq"
      else "etc" ++ ("/" ++ D ++ "/") ++ ".wh." ++ base := by
    simp only [whiteout_name, hcp, harg, hbase]
    rw [if_pos hne]
  have hopq : "etc" ++ ("/" ++ D ++ "/") ++ ".wh..wh..opq"
      = "etc/" ++ D ++ "/.wh..wh..opq" := by
    rw [etc_marker_merge]
    rw [show ("/" : String) ++ ".wh..wh..opq" = "/.wh..wh..opq" from by decide]
  have hwh : "etc" ++ ("/" ++ D ++ "/") ++ ".wh." ++ base
      = "etc/" ++ D ++ "/.wh." ++ base := by
    rw [etc_marker_merge D ".wh."]
    rw [show ("/" : String) ++ ".wh." = "/.wh." from by decide]
  refine ⟨fun hl => ?_, fun hl => ?_⟩
  · rw [hwn, hl]
    simpa using hopq
  · rw [hwn]
    cases hcase : listdir ("/etc/" ++ D ++ "/") with
    | nil => exact absurd hcase hl
    | cons x xs => simpa using hwh

/-- Witness for C1: deleting foo/bar.conf with an empty remote listing
yields the opaque marker, with a sibling remaining yields the single
whiteout. -/
theorem whiteout_subdir_marker_witness :
    whiteout_name (fun _ => []) "foo/bar.conf"
        = "etc/" ++ "foo" ++ "/.wh..wh..opq"
    ∧ whiteout_name (fun _ => ["sibling"]) "foo/bar.conf"
        = "etc/" ++ "foo" ++ "/.wh." ++ "bar.conf" :=
  ⟨(whiteout_subdir_marker (fun _ => []) "foo/bar.conf" "foo" "bar.conf"
      (by decide)).1 rfl,
   (whiteout_subdir_marker (fun _ => ["sibling"]) "foo/bar.conf" "foo"
      "bar.conf" (by decide)).2 (by decide)⟩

/-- C2 counterexample: deleting the root-level entry baz with no remaining
siblings under /etc (every listing empty) produces etc/.wh.baz, not the
opaque marker etc/.wh..wh..opq the claim requires. -/
theorem root_deletion_claim_false :
    whiteout_name (fun _ => []) "baz" = "etc/.wh.baz"
    ∧ whiteout_name (fun _ => []) "baz" ≠ "etc/.wh..wh..opq" := by decide

/-- C2 amended: for every Deleted record at a root-level path P, the
encoder produces the plain marker etc/.wh.<P> without consulting the
remote listing, whether or not siblings remain. -/
theorem whiteout_root_marker (listdir : String → List String) (P : String)
    (h : '/' ∉ P.data) :
    whiteout_name listdir P = "etc/.wh." ++ P := by
  have hcp := check_path_of_no_slash h
  have hwn : whiteout_name listdir P = "etc" ++ "/" ++ ".wh." ++ P := by
    simp only [whiteout_name, hcp]
    rw [if_neg (by simp)]
  rw [hwn]
  rw [show ("etc" : String) ++ "/" = "etc/" from by decide]
  rw [show ("etc/" : String) ++ ".wh." = "etc/.wh." from by decide]

/-- Witness for the amended C2 at the root-level path baz. -/
theorem whiteout_root_marker_witness :
    whiteout_name (fun _ => []) "baz" = "etc/.wh." ++ "baz" :=
  whiteout_root_marker (fun _ => []) "baz" (by decide)

/-- C6: for every raw change list in which each line has at least two
fields, the filtered output is exactly the original list with the records
whose path (field 1) lies in the ignore list removed, in original order
(List.filter preserves order). -/
theorem filter_preserves_order_excludes_ignored (lines : List String)
    (h : ∀ l ∈ lines, 2 ≤ (pySplit l).length) :
    filterChanges lines
      = some (lines.filter
          (fun l => decide (((pySplit l)[1]?).getD "" ∉ ignore_files))) := by
  induction lines with
  | nil => rfl
  | cons l ls ih =>
    have hl := h l (List.mem_cons_self l ls)
    obtain ⟨p, hp⟩ : ∃ p, (pySplit l)[1]? = some p := by
      cases hq : (pySplit l)[1]? with
      | some p => exact ⟨p, rfl⟩
      | none =>
        rw [List.getElem?_eq_none_iff] at hq
        omega
    have hrest := ih (fun x hx => h x (List.mem_cons_of_mem _ hx))
    by_cases hmem : p ∈ ignore_files
    · simp only [filterChanges, ignore_changes_deletion, hp, if_pos hmem,
        hrest]
      simp [List.filter_cons, hp, hmem]
    · simp only [filterChanges, ignore_changes_deletion, hp, if_neg hmem,
        hrest]
      simp [List.filter_cons, hp, hmem]

/-- Witness for C6 on a concrete three-line change list: the two ignored
paths are dropped, the remaining record is kept. -/
theorem filter_preserves_order_excludes_ignored_witness :
    filterChanges ["M hostname", "A osrelease", "D gshadow"]
      = some (["M hostname", "A osrelease", "D gshadow"].filter
          (fun l => decide (((pySplit l)[1]?).getD "" ∉ ignore_files))) :=
  filter_preserves_order_excludes_ignored
    ["M hostname", "A osrelease", "D gshadow"] (by decide)

/-- C10: a change-list line with fewer than two whitespace-separated
fields makes the ignore predicate hit an IndexError (modeled as none),
and any list containing such a line makes the whole filter abort instead
of classifying the line. -/
theorem short_line_aborts (line : String) (lines : List String)
    (h1 : (pySplit line).length < 2) (h2 : line ∈ lines) :
    ignore_changes_deletion line = none ∧ filterChanges lines = none := by
  have hnone : ignore_changes_deletion line = none := by
    have hidx : (pySplit line)[1]? = none := by
      rw [List.getElem?_eq_none_iff]
      omega
    simp only [ignore_changes_deletion, hidx]
  refine ⟨hnone, ?_⟩
  induction lines with
  | nil => simp at h2
  | cons l ls ih =>
    rcases List.mem_cons.mp h2 with hl | hl
    · subst hl
      simp only [filterChanges, hnone]
    · have hrec := ih hl
      cases hig : ignore_changes_deletion l with
      | none => simp only [filterChanges, hig]
      | some b =>
        cases b
        · simp only [filterChanges, hig, hrec]
        · simp [filterChanges, hig, hrec]

/-- Witness for C10: the bare status line D aborts the filter. -/
theorem short_line_aborts_witness :
    ignore_changes_deletion "D" = none
    ∧ filterChanges ["M motd", "D"] = none :=
  short_line_aborts "D" ["M motd", "D"] (by decide) (by decide)

/-- The per-change loop computes exactly the concatenation of the
non-deletion paths and raises the deletion flag iff some item has status
code D. -/
theorem loopChanges_characterization (listdir : String → List String)
    (whStatus : String → Nat) (tmp : String) (changes : List String)
    (acc : String) (b : Bool) (files : String) (fdel : Bool)
    (h : loopChanges listdir whStatus tmp changes acc b = some (files, fdel)) :
    files = acc ++ amPaths changes
    ∧ fdel = (b || changes.any (fun c => (pyField c 0).getD "" == "D")) := by
  induction changes generalizing acc b with
  | nil =>
    simp only [loopChanges, Option.some.injEq, Prod.mk.injEq] at h
    obtain ⟨hf, hd⟩ := h
    subst hf; subst hd
    exact ⟨(sappend_empty acc).symm, by simp⟩
  | cons item rest ih =>
    by_cases hD : (pyField item 0).getD "" ≠ "D"
    · rw [loopChanges, if_pos hD] at h
      obtain ⟨hf, hd⟩ := ih _ _ h
      constructor
      · rw [hf]
        simp only [amPaths, if_pos hD]
        simp only [sappend_assoc]
      · rw [hd]
        have hfalse : ((pyField item 0).getD "" == "D") = false := by
          simpa using hD
        simp [List.any_cons, hfalse]
    · have hD2 : (pyField item 0).getD "" = "D" := not_not.mp hD
      rw [loopChanges, if_neg hD] at h
      cases hw : whiteouts_run listdir whStatus tmp
          ((pyField item 1).getD "") with
      | none => rw [hw] at h; simp at h
      | some u =>
        rw [hw] at h
        simp only at h
        obtain ⟨hf, hd⟩ := ih _ _ h
        constructor
        · rw [hf]
          simp only [amPaths, hD2]
          simp
        · rw [hd]
          simp [List.any_cons, hD2]

/-- C4: when the loop completes, the deletion flag is set exactly when a
deletion occurred, and the archive command has exactly the two shapes:
with deletions it is based at the scratch directory (dot member) with the
archive excluded from itself and the added/modified paths appended; with
no deletions it names only the added/modified paths and no scratch-base
member. -/
theorem archive_command_two_shapes (listdir : String → List String)
    (whStatus : String → Nat) (tmp : String) (changes : List String)
    (files : String) (fdel : Bool)
    (h : loopChanges listdir whStatus tmp changes "" false
        = some (files, fdel)) :
    fdel = changes.any (fun c => (pyField c 0).getD "" == "D")
    ∧ tar_command tmp files fdel =
        (if changes.any (fun c => (pyField c 0).getD "" == "D") then
          "sudo tar --exclude=" ++ TAR_NAME ++ " --xattrs --acls -cf "
            ++ tmp ++ "/" ++ TAR_NAME ++ " -C " ++ tmp ++ " . "
            ++ amPaths changes
        else
          "sudo tar --xattrs --acls -cf " ++ tmp ++ "/" ++ TAR_NAME
            ++ " " ++ amPaths changes) := by
  obtain ⟨hf, hd⟩ := loopChanges_characterization listdir whStatus tmp
    changes "" false files fdel h
  have hfiles : files = amPaths changes := by
    rw [hf, sempty_append]
  have hflag : fdel = changes.any (fun c => (pyField c 0).getD "" == "D") := by
    simpa using hd
  refine ⟨hflag, ?_⟩
  rw [hfiles, hflag]
  rfl

/-- Witness for C4 on one modification plus one deletion. -/
theorem archive_command_two_shapes_witness :
    true = (["M motd", "D foo/bar.conf"].any
        (fun c => (pyField c 0).getD "" == "D"))
    ∧ tar_command "/tmp/x" "/etc/motd " true =
        (if ["M motd", "D foo/bar.conf"].any
            (fun c => (pyField c 0).getD "" == "D") then
          "sudo tar --exclude=" ++ TAR_NAME ++ " --xattrs --acls -cf "
            ++ "/tmp/x" ++ "/" ++ TAR_NAME ++ " -C " ++ "/tmp/x" ++ " . "
            ++ amPaths ["M motd", "D foo/bar.conf"]
        else
          "sudo tar --xattrs --acls -cf " ++ "/tmp/x" ++ "/" ++ TAR_NAME
            ++ " " ++ amPaths ["M motd", "D foo/bar.conf"]) :=
  archive_command_two_shapes (fun _ => ["sib"]) (fun _ => 0) "/tmp/x"
    ["M motd", "D foo/bar.conf"] "/etc/motd " true (by decide)

/-- Helper: the exact outcome of a run whose archive command fails. -/
theorem isolate_tarFail_eq (env : Env) (changes : List String)
    (fb : String × Bool)
    (hc : env.connectOk = true) (hd : env.diffStatus = 0)
    (hf : filterChanges (env.diffLines.drop 2) = some changes)
    (hne : changes ≠ [])
    (hs : env.sftpOk = true) (hm : env.mkdirOk = true)
    (hl : loopChanges env.listdir env.whStatus env.scratchName changes ""
        false = some fb)
    (ht : 0 < env.tarStatus) :
    isolate_user_changes env
      = ([.mkdirScratch, .removeScratch, .sftpClose, .close],
         .error .tarFail) := by
  have hne2 : changes.isEmpty = false := by
    cases changes with
    | nil => exact absurd rfl hne
    | cons a l => rfl
  simp only [isolate_user_changes, hc, hd, hf, hne2, hs, hm, hl]
  simp [ht]

/-- C5: if the remote archive-creation command exits non-zero, the run
fails with the archive error: the scratch directory is removed before
the session is closed and before the error propagates, and no download
of the output archive (hence no local output file) happens. -/
theorem tar_failure_cleanup (env : Env) (changes : List String)
    (fb : String × Bool)
    (hc : env.connectOk = true) (hd : env.diffStatus = 0)
    (hf : filterChanges (env.diffLines.drop 2) = some changes)
    (hne : changes ≠ [])
    (hs : env.sftpOk = true) (hm : env.mkdirOk = true)
    (hl : loopChanges env.listdir env.whStatus env.scratchName changes ""
        false = some fb)
    (ht : 0 < env.tarStatus) :
    (isolate_user_changes env).2 = .error .tarFail
    ∧ Ev.download ∉ (isolate_user_changes env).1
    ∧ Ev.removeScratch ∈ (isolate_user_changes env).1
    ∧ (isolate_user_changes env).1.indexOf Ev.removeScratch
        < (isolate_user_changes env).1.indexOf Ev.close := by
  rw [isolate_tarFail_eq env changes fb hc hd hf hne hs hm hl ht]
  refine ⟨rfl, ?_, ?_, ?_⟩ <;> decide

/-- Witness for C5: a concrete run whose tar command exits 1. -/
theorem tar_failure_cleanup_witness :
    (isolate_user_changes envTarFail).2 = .error .tarFail
    ∧ Ev.download ∉ (isolate_user_changes envTarFail).1
    ∧ Ev.removeScratch ∈ (isolate_user_changes envTarFail).1
    ∧ (isolate_user_changes envTarFail).1.indexOf Ev.removeScratch
        < (isolate_user_changes envTarFail).1.indexOf Ev.close :=
  tar_failure_cleanup envTarFail ["M motd", "D foo/bar.conf"]
    ("/etc/motd ", true) rfl rfl (by decide) (by decide) rfl rfl (by decide)
    (by decide)

/-- C7: when the diff command succeeded and the filtered change list is
empty, the run terminates with the distinct no-changes outcome (message:
no change is made in /etc by user); it neither succeeds nor reports a
command or transport failure. -/
theorem empty_filter_no_changes (env : Env)
    (hc : env.connectOk = true) (hd : env.diffStatus = 0)
    (hf : filterChanges (env.diffLines.drop 2) = some []) :
    isolate_user_changes env = ([], .error .noChanges)
    ∧ torizonErrorMessage .noChanges
        = some "no change is made in /etc by user" := by
  refine ⟨?_, rfl⟩
  simp [isolate_user_changes, hc, hd, hf]

/-- Witness for C7: a change list holding only an ignored path filters to
empty and yields the no-changes outcome. -/
theorem empty_filter_no_changes_witness :
    isolate_user_changes { envOk with diffLines := ["p", "q", "M hostname"] }
        = ([], .error .noChanges)
    ∧ torizonErrorMessage .noChanges
        = some "no change is made in /etc by user" :=
  empty_filter_no_changes { envOk with diffLines := ["p", "q", "M hostname"] }
    rfl rfl (by decide)

/-- C3 counterexample: a run whose whiteout-materialization command fails
creates the scratch directory and never removes it, so the
removed-exactly-once invariant fails on an outcome the claim covers. -/
theorem scratch_leak_on_whiteout_failure :
    isolate_user_changes envWhiteoutFail
      = ([.mkdirScratch], .error .whiteoutFail)
    ∧ (isolate_user_changes envWhiteoutFail).1.count Ev.removeScratch
        = 0 :=
  ⟨rfl, by decide⟩

/-- C3 amended: the scratch directory is removed exactly once, before the
disconnect, on success and on archive-creation, extraction and local
cleanup failures; on whiteout-materialization failure and on transfer
failure it was created but is never removed. -/
theorem scratch_removal_by_outcome (env : Env) :
    ((isolate_user_changes env).2 = .ok ()
        ∨ (isolate_user_changes env).2 = .error .tarFail
        ∨ (isolate_user_changes env).2 = .error .extractFail
        ∨ (isolate_user_changes env).2 = .error .rmLocalFail →
      (isolate_user_changes env).1.count Ev.removeScratch = 1
        ∧ (isolate_user_changes env).1.indexOf Ev.removeScratch
            < (isolate_user_changes env).1.indexOf Ev.close)
    ∧ ((isolate_user_changes env).2 = .error .whiteoutFail
        ∨ (isolate_user_changes env).2 = .error .transferFail →
      Ev.mkdirScratch ∈ (isolate_user_changes env).1
        ∧ (isolate_user_changes env).1.count Ev.removeScratch = 0) := by
  unfold isolate_user_changes
  repeat' split
  all_goals decide

/-- Witness for the amended C3: the fully successful run removes the
scratch directory exactly once and before the disconnect. -/
theorem scratch_removal_by_outcome_witness :
    (isolate_user_changes envOk).1.count Ev.removeScratch = 1
      ∧ (isolate_user_changes envOk).1.indexOf Ev.removeScratch
          < (isolate_user_changes envOk).1.indexOf Ev.close :=
  (scratch_removal_by_outcome envOk).1 (Or.inl rfl)

/-- C8 counterexample: on whiteout-materialization failure the exception
propagates with the session never disconnected. -/
theorem no_disconnect_on_whiteout_failure :
    (isolate_user_changes envWhiteoutFail).2 = .error .whiteoutFail
    ∧ Ev.close ∉ (isolate_user_changes envWhiteoutFail).1 :=
  ⟨rfl, by decide⟩

/-- C8 amended: the session is disconnected on success and on the
diff-command, sftp-open, archive-command, extraction and local cleanup
failures, but not on the connect, malformed-line, no-changes,
scratch-creation, whiteout-materialization or transfer failures. -/
theorem disconnect_by_outcome (env : Env) :
    ((isolate_user_changes env).2 = .ok ()
        ∨ (isolate_user_changes env).2 = .error .configDiff
        ∨ (isolate_user_changes env).2 = .error .sftpNone
        ∨ (isolate_user_changes env).2 = .error .tarFail
        ∨ (isolate_user_changes env).2 = .error .extractFail
        ∨ (isolate_user_changes env).2 = .error .rmLocalFail →
      Ev.close ∈ (isolate_user_changes env).1)
    ∧ ((isolate_user_changes env).2 = .error .connectFail
        ∨ (isolate_user_changes env).2 = .error .indexError
        ∨ (isolate_user_changes env).2 = .error .noChanges
        ∨ (isolate_user_changes env).2 = .error .mkdirFail
        ∨ (isolate_user_changes env).2 = .error .whiteoutFail
        ∨ (isolate_user_changes env).2 = .error .transferFail →
      Ev.close ∉ (isolate_user_changes env).1) := by
  unfold isolate_user_changes
  repeat' split
  all_goals decide

/-- Witness for the amended C8: the successful run closes the session. -/
theorem disconnect_by_outcome_witness :
    Ev.close ∈ (isolate_user_changes envOk).1 :=
  (disconnect_by_outcome envOk).1 (Or.inl rfl)

/-- C9 counterexample: with the scratch-directory rm command exiting 7,
the run still succeeds: the non-zero status of the removal command is
ignored (remove_tmp_dir discards the status of its rm command). -/
theorem rm_failure_ignored :
    (isolate_user_changes { envOk with rmStatus := 7 }).2 = .ok ()
    ∧ remove_tmp_dir (fun _ => (7, "rm: cannot remove"))
        "/tmp/torizon-builder-d" = () :=
  ⟨rfl, rfl⟩

/-- C9 amended: the diff fetch, whiteout materialization and archive
creation each treat a non-zero exit status as a failure of that step,
but the scratch-directory removal ignores its exit status: the whole run
is unchanged by it. -/
theorem nonzero_exit_by_command (env : Env) :
    (env.connectOk = true → 0 < env.diffStatus →
      isolate_user_changes env = ([.close], .error .configDiff))
    ∧ (∀ d, 0 < env.whStatus (create_deleted_info_cmd env.scratchName
          (whiteout_name env.listdir d)) →
        whiteouts_run env.listdir env.whStatus env.scratchName d = none)
    ∧ (∀ changes fb, env.connectOk = true → env.diffStatus = 0 →
        filterChanges (env.diffLines.drop 2) = some changes →
        changes ≠ [] → env.sftpOk = true → env.mkdirOk = true →
        loopChanges env.listdir env.whStatus env.scratchName changes ""
            false = some fb →
        0 < env.tarStatus →
        (isolate_user_changes env).2 = .error .tarFail)
    ∧ (∀ s, isolate_user_changes { env with rmStatus := s }
        = isolate_user_changes env) := by
  refine ⟨?_, ?_, ?_, ?_⟩
  · intro hc hdgt
    simp [isolate_user_changes, hc, hdgt]
  · intro d hgt
    simp [whiteouts_run, hgt]
  · intro changes fb hc hd hf hne hs hm hl ht
    rw [isolate_tarFail_eq env changes fb hc hd hf hne hs hm hl ht]
  · intro s
    rfl

/-- Witness for the amended C9: a non-zero diff status yields the
diff-command failure at a concrete environment. -/
theorem nonzero_exit_by_command_witness :
    isolate_user_changes { envOk with diffStatus := 1 }
      = ([.close], .error .configDiff) :=
  (nonzero_exit_by_command { envOk with diffStatus := 1 }).1 rfl
    (by decide)

end Isolate
